import Mathlib

/- Shallow embedding of the i8259 programmable interrupt controller emulation
   from hw/i8259.c.  Machine integers are modelled as Nat: every register
   field of the device is an 8-bit quantity (uint8_t in the C struct), and the
   stores that truncate in C truncate here through masks or mod 256.  The
   bit-clearing idiom x and not mask of the C code acts on uint8_t registers,
   so it is rendered as x &&& (255 ^^^ mask). -/

namespace I8259

/-- Register file of a single PIC unit (struct PicState in hw/i8259.c),
restricted to its data fields; the int_out wire and the back pointer to the
pair live in the pair structure below. -/
structure PicState where
  last_irr : Nat
  irr : Nat
  imr : Nat
  isr : Nat
  priority_add : Nat
  irq_base : Nat
  read_reg_select : Nat
  poll : Nat
  special_mask : Nat
  init_state : Nat
  auto_eoi : Nat
  rotate_on_auto_eoi : Nat
  special_fully_nested_mode : Nat
  init4 : Nat
  single_mode : Nat
  elcr : Nat
  elcr_mask : Nat
deriving Repr, DecidableEq

/-- Cascaded pair (struct PicState2): master pics0, slave pics1, plus the CPU
interrupt output wire driven by the master unit's int_out. -/
structure PicState2 where
  pics0 : PicState
  pics1 : PicState
  cpu_out : Bool
deriving Repr, DecidableEq

/-- Unit selector: u = false is the master pics0, u = true the slave pics1. -/
def getUnit (st : PicState2) (u : Bool) : PicState :=
  if u then st.pics1 else st.pics0

/-- Replace the selected unit's registers. -/
def setUnit (st : PicState2) (u : Bool) (s : PicState) : PicState2 :=
  if u then { st with pics1 := s } else { st with pics0 := s }

/-- Loop of get_priority: scan priorities p, p+1, ... while the bit at line
(p + add) &&& 7 of mask is clear, with explicit fuel; fuel 8 visits every
line once, which is exhaustive for the 8-bit masks the device holds. -/
def prioAux (add mask : Nat) : Nat → Nat → Nat
  | p, 0 => p
  | p, fuel + 1 =>
    if mask &&& (1 <<< ((p + add) &&& 7)) = 0 then prioAux add mask (p + 1) fuel else p

/-- get_priority from hw/i8259.c: highest priority present in mask (highest
means smallest number), 8 if mask is empty. -/
def get_priority (s : PicState) (mask : Nat) : Nat :=
  if mask = 0 then 8 else prioAux s.priority_add mask 0 8

/-- pic_get_irq from hw/i8259.c: the interrupt line the unit wants raised,
none if no request beats the current in-service priority.  The C code
detects the master unit by pointer comparison with pics_state; here the
caller passes isMaster explicitly. -/
def pic_get_irq (isMaster : Bool) (s : PicState) : Option Nat :=
  let mask := s.irr &&& (255 ^^^ s.imr)
  let priority := get_priority s mask
  if priority = 8 then none
  else
    let mask1 := s.isr
    let mask2 := if s.special_mask ≠ 0 then mask1 &&& (255 ^^^ s.imr) else mask1
    let mask3 :=
      if s.special_fully_nested_mode ≠ 0 ∧ isMaster then mask2 &&& (255 ^^^ (1 <<< 2))
      else mask2
    let cur_priority := get_priority s mask3
    if priority < cur_priority then some ((priority + s.priority_add) &&& 7) else none

/-- Register effect of pic_set_irq1 (IRR update and edge detection); the
output-wire update that ends the C function is pic_update_irq below. -/
def pic_set_irq1_regs (s : PicState) (irq level : Nat) : PicState :=
  let mask := 1 <<< irq
  let p : Nat × Nat :=
    if s.elcr &&& mask ≠ 0 then
      if level ≠ 0 then (s.irr ||| mask, s.last_irr ||| mask)
      else (s.irr &&& (255 ^^^ mask), s.last_irr &&& (255 ^^^ mask))
    else
      if level ≠ 0 then
        (if s.last_irr &&& mask = 0 then s.irr ||| mask else s.irr, s.last_irr ||| mask)
      else (s.irr, s.last_irr &&& (255 ^^^ mask))
  { s with irr := p.1, last_irr := p.2 }

/-- pic_update_irq on the master: its int_out is the CPU interrupt wire. -/
def pic_update_irq0 (st : PicState2) : PicState2 :=
  { st with cpu_out := (pic_get_irq true st.pics0).isSome }

/-- pic_set_irq1 on the master unit: register update then pic_update_irq. -/
def pic_set_irq1_0 (st : PicState2) (irq level : Nat) : PicState2 :=
  pic_update_irq0 { st with pics0 := pic_set_irq1_regs st.pics0 irq level }

/-- pic_update_irq on the slave: its int_out wire is the handle for the
master's line 2 (i8259_init wires pics1 to irqs[2]), so raising or lowering
it runs pic_set_irq1 on the master unit. -/
def pic_update_irq1 (st : PicState2) : PicState2 :=
  pic_set_irq1_0 st 2 (if (pic_get_irq false st.pics1).isSome then 1 else 0)

/-- pic_set_irq1 on the slave unit: register update then pic_update_irq. -/
def pic_set_irq1_1 (st : PicState2) (irq level : Nat) : PicState2 :=
  pic_update_irq1 { st with pics1 := pic_set_irq1_regs st.pics1 irq level }

/-- pic_update_irq dispatched by unit selector. -/
def pic_update_irq (st : PicState2) (u : Bool) : PicState2 :=
  if u then pic_update_irq1 st else pic_update_irq0 st

/-- pic_set_irq1 dispatched by unit selector. -/
def pic_set_irq1 (st : PicState2) (u : Bool) (irq level : Nat) : PicState2 :=
  if u then pic_set_irq1_1 st irq level else pic_set_irq1_0 st irq level

/-- i8259_set_irq: line input of the pair; line shift-right 3 picks the unit,
line &&& 7 the local line.  Lines above 15 address no unit. -/
def i8259_set_irq (st : PicState2) (irq level : Nat) : PicState2 :=
  if irq ≥ 16 then st
  else pic_set_irq1 st (decide (irq >>> 3 ≠ 0)) (irq &&& 7) level

/-- Register effect of pic_intack: latch ISR (or rotate under auto-EOI) and
clear the IRR bit of an edge-triggered line. -/
def pic_intack_regs (s : PicState) (irq : Nat) : PicState :=
  let pa :=
    if s.auto_eoi ≠ 0 then
      (if s.rotate_on_auto_eoi ≠ 0 then (irq + 1) &&& 7 else s.priority_add)
    else s.priority_add
  let isr1 := if s.auto_eoi ≠ 0 then s.isr else s.isr ||| (1 <<< irq)
  let irr1 := if s.elcr &&& (1 <<< irq) = 0 then s.irr &&& (255 ^^^ (1 <<< irq)) else s.irr
  { s with priority_add := pa, isr := isr1, irr := irr1 }

/-- pic_intack on unit u: register update then output re-evaluation. -/
def pic_intack (st : PicState2) (u : Bool) (irq : Nat) : PicState2 :=
  pic_update_irq (setUnit st u (pic_intack_regs (getUnit st u) irq)) u

/-- pic_read_irq: the interrupt-acknowledge cycle over the pair, returning
the CPU vector and the successor state. -/
def pic_read_irq (st : PicState2) : Nat × PicState2 :=
  match pic_get_irq true st.pics0 with
  | none => (st.pics0.irq_base + 7, st)
  | some irq =>
    if irq = 2 then
      match pic_get_irq false st.pics1 with
      | some irq2 =>
        let st1 := pic_intack st true irq2
        (st1.pics1.irq_base + irq2, pic_intack st1 false irq)
      | none => (st.pics1.irq_base + 7, pic_intack st false irq)
    else (st.pics0.irq_base + irq, pic_intack st false irq)

/-- Register effect of pic_init_reset: every field zeroed except elcr and
elcr_mask (the source notes that ELCR is not reset). -/
def pic_init_reset_regs (s : PicState) : PicState :=
  { last_irr := 0, irr := 0, imr := 0, isr := 0, priority_add := 0, irq_base := 0,
    read_reg_select := 0, poll := 0, special_mask := 0, init_state := 0, auto_eoi := 0,
    rotate_on_auto_eoi := 0, special_fully_nested_mode := 0, init4 := 0, single_mode := 0,
    elcr := s.elcr, elcr_mask := s.elcr_mask }

/-- pic_init_reset on unit u (warm reset), including the closing
pic_update_irq call. -/
def pic_init_reset (st : PicState2) (u : Bool) : PicState2 :=
  pic_update_irq (setUnit st u (pic_init_reset_regs (getUnit st u))) u

/-- pic_reset (cold reset, registered with qemu_register_reset): warm reset
followed by clearing elcr. -/
def pic_reset (st : PicState2) (u : Bool) : PicState2 :=
  let st1 := pic_init_reset st u
  setUnit st1 u { getUnit st1 u with elcr := 0 }

/-- pic_ioport_write: byte write at offset addr of unit u.  Returns none when
the write reaches hw_error (level sensitive irq not supported), which halts
the machine instead of producing a state. -/
def pic_ioport_write (st : PicState2) (u : Bool) (addr val : Nat) : Option PicState2 :=
  let s := getUnit st u
  if addr = 0 then
    if val &&& 0x10 ≠ 0 then
      let st1 := pic_init_reset st u
      let s1 := getUnit st1 u
      let st2 := setUnit st1 u
        { s1 with init_state := 1, init4 := val &&& 1, single_mode := val &&& 2 }
      if val &&& 0x08 ≠ 0 then none else some st2
    else if val &&& 0x08 ≠ 0 then
      let poll1 := if val &&& 0x04 ≠ 0 then 1 else s.poll
      let rrs1 := if val &&& 0x02 ≠ 0 then val &&& 1 else s.read_reg_select
      let sm1 := if val &&& 0x40 ≠ 0 then (val >>> 5) &&& 1 else s.special_mask
      some (setUnit st u { s with poll := poll1, read_reg_select := rrs1, special_mask := sm1 })
    else
      let cmd := val >>> 5
      if cmd = 0 ∨ cmd = 4 then
        some (setUnit st u { s with rotate_on_auto_eoi := cmd >>> 2 })
      else if cmd = 1 ∨ cmd = 5 then
        let priority := get_priority s s.isr
        if priority ≠ 8 then
          let irq := (priority + s.priority_add) &&& 7
          let pa := if cmd = 5 then (irq + 1) &&& 7 else s.priority_add
          some (pic_update_irq
            (setUnit st u { s with isr := s.isr &&& (255 ^^^ (1 <<< irq)), priority_add := pa }) u)
        else some st
      else if cmd = 3 then
        let irq := val &&& 7
        some (pic_update_irq (setUnit st u { s with isr := s.isr &&& (255 ^^^ (1 <<< irq)) }) u)
      else if cmd = 6 then
        some (pic_update_irq (setUnit st u { s with priority_add := (val + 1) &&& 7 }) u)
      else if cmd = 7 then
        let irq := val &&& 7
        some (pic_update_irq
          (setUnit st u { s with isr := s.isr &&& (255 ^^^ (1 <<< irq)),
                                 priority_add := (irq + 1) &&& 7 }) u)
      else some st
  else
    match s.init_state with
    | 0 => some (pic_update_irq (setUnit st u { s with imr := val % 256 }) u)
    | 1 =>
      let ns := if s.single_mode ≠ 0 then (if s.init4 ≠ 0 then 3 else 0) else 2
      some (setUnit st u { s with irq_base := val &&& 0xf8, init_state := ns })
    | 2 => some (setUnit st u { s with init_state := if s.init4 ≠ 0 then 3 else 0 })
    | 3 =>
      let sf := (val >>> 4) &&& 1
      let ae := (val >>> 1) &&& 1
      some (setUnit st u { s with special_fully_nested_mode := sf, auto_eoi := ae, init_state := 0 })
    | _ => some st

/-- pic_poll_read: polled acknowledge on unit u.  The source detects the
slave by comparing against isa_pic pics 1; here u = true means slave. -/
def pic_poll_read (st : PicState2) (u : Bool) : Nat × PicState2 :=
  match pic_get_irq (!u) (getUnit st u) with
  | some ret =>
    let st1 :=
      if u then
        { st with pics0 := { st.pics0 with
            isr := st.pics0.isr &&& (255 ^^^ (1 <<< 2)),
            irr := st.pics0.irr &&& (255 ^^^ (1 <<< 2)) } }
      else st
    let s1 := getUnit st1 u
    let st2 := setUnit st1 u { s1 with irr := s1.irr &&& (255 ^^^ (1 <<< ret)),
                                       isr := s1.isr &&& (255 ^^^ (1 <<< ret)) }
    let st3 := if u ∨ ret ≠ 2 then pic_update_irq st2 u else st2
    (ret, st3)
  | none => (7, st)

/-- pic_ioport_read: byte read at offset addr of unit u, returning the value
and the successor state (a read consumes the poll flag). -/
def pic_ioport_read (st : PicState2) (u : Bool) (addr : Nat) : Nat × PicState2 :=
  let s := getUnit st u
  if s.poll ≠ 0 then
    let r := pic_poll_read st u
    (r.1, setUnit r.2 u { getUnit r.2 u with poll := 0 })
  else if addr = 0 then
    (if s.read_reg_select ≠ 0 then s.isr else s.irr, st)
  else (s.imr, st)

/-- pic_intack_read: memory-mapped acknowledge, a polled read of the master,
then one of the slave when the master produced line 2, then priming
read_reg_select on the master. -/
def pic_intack_read (st : PicState2) : Nat × PicState2 :=
  let r0 := pic_poll_read st false
  let r1 :=
    if r0.1 = 2 then
      (let rs := pic_poll_read r0.2 true
       (rs.1 + 8, rs.2))
    else r0
  (r1.1, { r1.2 with pics0 := { r1.2.pics0 with read_reg_select := 1 } })

/-- elcr_ioport_write: stores val masked by the per-chip elcr_mask. -/
def elcr_ioport_write (st : PicState2) (u : Bool) (val : Nat) : PicState2 :=
  setUnit st u { getUnit st u with elcr := val &&& (getUnit st u).elcr_mask }

/-- An all-zero register file. -/
def zeroPic : PicState :=
  { last_irr := 0, irr := 0, imr := 0, isr := 0, priority_add := 0, irq_base := 0,
    read_reg_select := 0, poll := 0, special_mask := 0, init_state := 0, auto_eoi := 0,
    rotate_on_auto_eoi := 0, special_fully_nested_mode := 0, init4 := 0, single_mode := 0,
    elcr := 0, elcr_mask := 0 }

/-- State set up by i8259_init: zero-filled units (g_malloc0) with the PIIX
elcr masks 0xf8 (master) and 0xde (slave); the wires start low. -/
def initState : PicState2 :=
  { pics0 := { zeroPic with elcr_mask := 0xf8 },
    pics1 := { zeroPic with elcr_mask := 0xde },
    cpu_out := false }

/-- States reachable from the freshly initialised pair through the public
entry points: port writes and reads, elcr writes, line inputs, the two
acknowledge flavours, and reset. -/
inductive Reachable : PicState2 → Prop where
  | init : Reachable initState
  | ioport_write (st : PicState2) (u : Bool) (addr val : Nat) (st2 : PicState2) :
      Reachable st → val < 256 → pic_ioport_write st u addr val = some st2 → Reachable st2
  | ioport_read (st : PicState2) (u : Bool) (addr : Nat) :
      Reachable st → Reachable (pic_ioport_read st u addr).2
  | elcr_write (st : PicState2) (u : Bool) (val : Nat) :
      Reachable st → val < 256 → Reachable (elcr_ioport_write st u val)
  | set_irq (st : PicState2) (irq level : Nat) :
      Reachable st → Reachable (i8259_set_irq st irq level)
  | read_irq (st : PicState2) :
      Reachable st → Reachable (pic_read_irq st).2
  | intack_read (st : PicState2) :
      Reachable st → Reachable (pic_intack_read st).2
  | reset (st : PicState2) (u : Bool) :
      Reachable st → Reachable (pic_reset st u)

/-- All register fields used by the priority logic hold 8-bit values, as the
uint8_t storage in the C struct guarantees. -/
def WF (s : PicState) : Prop :=
  s.last_irr < 256 ∧ s.irr < 256 ∧ s.imr < 256 ∧ s.isr < 256 ∧ s.elcr < 256

/-- Service mask of the pending computation as the specification words it:
isr, with imr removed under special mask mode, and bit 2 removed on the
master under special fully nested mode. -/
def serviceMask (isMaster : Bool) (s : PicState) : Nat :=
  let m1 := if s.special_mask ≠ 0 then s.isr &&& (255 ^^^ s.imr) else s.isr
  if s.special_fully_nested_mode ≠ 0 ∧ isMaster then m1 &&& (255 ^^^ (1 <<< 2)) else m1

/-- Concrete master unit used to witness the pending-selection claim:
request on line 4 with rotated priority base 3. -/
def claim1State : PicState :=
  { zeroPic with irr := 0x10, priority_add := 3 }

/-- Concrete unit used to witness the line-input claim: line 0 is
level-triggered. -/
def claim2State : PicState2 :=
  { initState with pics0 := { zeroPic with elcr := 1, elcr_mask := 0xf8 } }

/-- Concrete pair used to witness the acknowledge claim: master line 2
pending from the cascade, slave line 0 pending. -/
def claim3State : PicState2 :=
  { pics0 := { zeroPic with irr := 4, irq_base := 0x20, elcr_mask := 0xf8 },
    pics1 := { zeroPic with irr := 1, irq_base := 0x28, elcr_mask := 0xde },
    cpu_out := true }

/-- Concrete unit used to refute the unconditional offset-1 read claim: the
poll flag is armed and imr is nonzero. -/
def claim6State : PicState2 :=
  { initState with pics0 := { zeroPic with poll := 1, imr := 1, elcr_mask := 0xf8 } }

/-- Concrete pair used to refute the poll-read output-re-evaluation claim:
master poll armed, master line 2 pending, wire currently high. -/
def claim4State : PicState2 :=
  { pics0 := { zeroPic with poll := 1, irr := 4, elcr_mask := 0xf8 },
    pics1 := { zeroPic with elcr_mask := 0xde },
    cpu_out := true }

lemma land_seven (x : Nat) : x &&& 7 = x % 8 := by
  have h := Nat.and_pow_two_sub_one_eq_mod x 3
  norm_num at h
  exact h

lemma land_one_shift_eq_zero (m j : Nat) : m &&& (1 <<< j) = 0 ↔ m.testBit j = false := by
  rw [Nat.shiftLeft_eq, one_mul, Nat.and_two_pow]
  cases hb : m.testBit j <;> simp

lemma testBit_one_shift (i j : Nat) : (1 <<< i).testBit j = decide (i = j) := by
  rw [Nat.shiftLeft_eq, one_mul]
  by_cases h : i = j
  · subst h; simp [Nat.testBit_two_pow_self]
  · simp [h, Nat.testBit_two_pow_of_ne h]

lemma testBit_comp255 (x j : Nat) (hj : j < 8) : (255 ^^^ x).testBit j = !(x.testBit j) := by
  rw [Nat.testBit_xor]
  have h255 : (255 : Nat) = 2 ^ 8 - 1 := by norm_num
  rw [h255, Nat.testBit_two_pow_sub_one]
  simp [hj]

lemma prioAux_spec (add mask : Nat) :
    ∀ fuel p, p ≤ prioAux add mask p fuel ∧ prioAux add mask p fuel ≤ p + fuel ∧
      (∀ i, p ≤ i → i < prioAux add mask p fuel → mask &&& (1 <<< ((i + add) &&& 7)) = 0) ∧
      (prioAux add mask p fuel < p + fuel →
        mask &&& (1 <<< ((prioAux add mask p fuel + add) &&& 7)) ≠ 0) := by
  intro fuel
  induction fuel with
  | zero =>
    intro p
    refine ⟨by simp [prioAux], by simp [prioAux], ?_, ?_⟩
    · intro i hpi hi; simp [prioAux] at hi; omega
    · intro h; simp [prioAux] at h
  | succ n ih =>
    intro p
    by_cases h : mask &&& (1 <<< ((p + add) &&& 7)) = 0
    · have e : prioAux add mask p (n + 1) = prioAux add mask (p + 1) n := by
        simp [prioAux, h]
      obtain ⟨h1, h2, h3, h4⟩ := ih (p + 1)
      rw [e]
      refine ⟨by omega, by omega, ?_, ?_⟩
      · intro i hpi hi
        rcases Nat.eq_or_lt_of_le hpi with heq | hlt
        · subst heq; exact h
        · exact h3 i hlt hi
      · intro hlt; exact h4 (by omega)
    · have e : prioAux add mask p (n + 1) = p := by simp [prioAux, h]
      rw [e]
      exact ⟨le_refl _, by omega, by intro i h1 h2; omega, by intro _; exact h⟩

lemma get_priority_zero (s : PicState) : get_priority s 0 = 8 := by
  simp [get_priority]

lemma get_priority_lt_eight (s : PicState) (mask : Nat) (h0 : mask ≠ 0) (h256 : mask < 256) :
    get_priority s mask < 8 := by
  unfold get_priority
  rw [if_neg h0]
  by_contra hc
  push_neg at hc
  obtain ⟨hs1, hs2, hs3, _⟩ := prioAux_spec s.priority_add mask 8 0
  have h8 : prioAux s.priority_add mask 0 8 = 8 := by omega
  obtain ⟨j, hj⟩ := Nat.ne_zero_implies_bit_true h0
  have hj8 : j < 8 := by
    by_contra hj8
    push_neg at hj8
    have hpow : (256 : Nat) ≤ 2 ^ j := by
      calc (256 : Nat) = 2 ^ 8 := by norm_num
      _ ≤ 2 ^ j := Nat.pow_le_pow_right (by norm_num) hj8
    have : mask.testBit j = false := Nat.testBit_lt_two_pow (by omega)
    rw [this] at hj
    exact Bool.false_ne_true hj
  have hi : (((j + 8 - s.priority_add % 8) % 8) + s.priority_add) &&& 7 = j := by
    rw [land_seven]
    omega
  have hz := hs3 ((j + 8 - s.priority_add % 8) % 8) (Nat.zero_le _) (by omega)
  rw [hi, land_one_shift_eq_zero, hj] at hz
  exact Bool.noConfusion hz

lemma get_priority_hit (s : PicState) (mask : Nat) (h : get_priority s mask < 8) :
    mask.testBit ((get_priority s mask + s.priority_add) &&& 7) = true := by
  have h0 : mask ≠ 0 := by
    intro he; rw [he, get_priority_zero] at h; omega
  obtain ⟨_, _, _, hs4⟩ := prioAux_spec s.priority_add mask 8 0
  have e : get_priority s mask = prioAux s.priority_add mask 0 8 := by
    unfold get_priority; rw [if_neg h0]
  rw [e] at h ⊢
  have hne := hs4 (by omega)
  by_contra hbit
  rw [Bool.not_eq_true] at hbit
  exact hne ((land_one_shift_eq_zero _ _).mpr hbit)

lemma get_priority_min (s : PicState) (mask q : Nat) (h : q < get_priority s mask) :
    mask.testBit ((q + s.priority_add) &&& 7) = false := by
  by_cases h0 : mask = 0
  · subst h0; exact Nat.zero_testBit _
  obtain ⟨_, hs2, hs3, _⟩ := prioAux_spec s.priority_add mask 8 0
  have e : get_priority s mask = prioAux s.priority_add mask 0 8 := by
    unfold get_priority; rw [if_neg h0]
  rw [e] at h
  have := hs3 q (Nat.zero_le _) h
  rw [land_one_shift_eq_zero] at this
  exact this

lemma get_priority_le_of_testBit (s : PicState) (mask q : Nat)
    (h : mask.testBit ((q + s.priority_add) &&& 7) = true) : get_priority s mask ≤ q := by
  by_contra hc
  push_neg at hc
  rw [get_priority_min s mask q hc] at h
  exact Bool.false_ne_true h

/-- C1: the pending-interrupt computation pic_get_irq returns none when the
request priority is 8; otherwise it returns line (p_req + priority_add) &&& 7
exactly when p_req is smaller than the priority of the in-service mask; and
get_priority returns the lowest-numbered priority position 0..7 whose line is
set in the mask, or 8 for an empty mask. -/
theorem claim1_pending_selection (s : PicState) (isMaster : Bool) :
    (get_priority s (s.irr &&& (255 ^^^ s.imr)) = 8 → pic_get_irq isMaster s = none) ∧
    (get_priority s (s.irr &&& (255 ^^^ s.imr)) ≠ 8 →
      (pic_get_irq isMaster s =
          some ((get_priority s (s.irr &&& (255 ^^^ s.imr)) + s.priority_add) &&& 7) ↔
        get_priority s (s.irr &&& (255 ^^^ s.imr)) < get_priority s (serviceMask isMaster s)) ∧
      (¬ get_priority s (s.irr &&& (255 ^^^ s.imr)) < get_priority s (serviceMask isMaster s) →
        pic_get_irq isMaster s = none)) ∧
    get_priority s 0 = 8 ∧
    (∀ mask, mask < 256 → mask ≠ 0 →
      get_priority s mask < 8 ∧
      mask.testBit ((get_priority s mask + s.priority_add) &&& 7) = true ∧
      ∀ q, q < get_priority s mask → mask.testBit ((q + s.priority_add) &&& 7) = false) := by
  refine ⟨?_, ?_, get_priority_zero s, ?_⟩
  · intro h8
    simp only [pic_get_irq, serviceMask]
    rw [if_pos h8]
  · intro hne
    have hmeq : (if s.special_fully_nested_mode ≠ 0 ∧ isMaster then
        (if s.special_mask ≠ 0 then s.isr &&& (255 ^^^ s.imr) else s.isr) &&& (255 ^^^ (1 <<< 2))
        else (if s.special_mask ≠ 0 then s.isr &&& (255 ^^^ s.imr) else s.isr)) =
        serviceMask isMaster s := rfl
    constructor
    · constructor
      · intro hsome
        by_contra hc
        simp only [pic_get_irq] at hsome
        rw [if_neg hne, hmeq, if_neg hc] at hsome
        exact Option.noConfusion hsome
      · intro hlt
        simp only [pic_get_irq]
        rw [if_neg hne, hmeq, if_pos hlt]
    · intro hc
      simp only [pic_get_irq]
      rw [if_neg hne, hmeq, if_neg hc]
  · intro mask h256 h0
    refine ⟨get_priority_lt_eight s mask h0 h256, get_priority_hit s mask ?_, ?_⟩
    · exact get_priority_lt_eight s mask h0 h256
    · intro q hq; exact get_priority_min s mask q hq

/-- Witness for the pending-selection claim at a concrete unit: line 4
requested, priority base 3, empty in-service mask. -/
theorem claim1_pending_selection_witness :
    pic_get_irq true claim1State = some 4 ∧ get_priority claim1State 16 < 8 := by
  have h := claim1_pending_selection claim1State true
  refine ⟨?_, ?_⟩
  · have h2 := (h.2.1 (by decide)).1.mpr (by decide)
    exact h2.trans (by decide)
  · exact (h.2.2.2 16 (by decide) (by decide)).1

lemma regs_level_hi (s : PicState) (irq level : Nat)
    (he : s.elcr &&& (1 <<< irq) ≠ 0) (hl : level ≠ 0) :
    pic_set_irq1_regs s irq level =
      { s with irr := s.irr ||| (1 <<< irq), last_irr := s.last_irr ||| (1 <<< irq) } := by
  simp only [pic_set_irq1_regs]
  rw [if_pos he, if_pos hl]

lemma regs_level_lo (s : PicState) (irq level : Nat)
    (he : s.elcr &&& (1 <<< irq) ≠ 0) (hl : level = 0) :
    pic_set_irq1_regs s irq level =
      { s with irr := s.irr &&& (255 ^^^ (1 <<< irq)),
               last_irr := s.last_irr &&& (255 ^^^ (1 <<< irq)) } := by
  simp only [pic_set_irq1_regs]
  rw [if_pos he, if_neg (by simp [hl])]

lemma regs_edge_hi (s : PicState) (irq level : Nat)
    (he : s.elcr &&& (1 <<< irq) = 0) (hl : level ≠ 0) :
    pic_set_irq1_regs s irq level =
      { s with irr := if s.last_irr &&& (1 <<< irq) = 0 then s.irr ||| (1 <<< irq) else s.irr,
               last_irr := s.last_irr ||| (1 <<< irq) } := by
  simp only [pic_set_irq1_regs]
  rw [if_neg (by simp [he]), if_pos hl]

lemma regs_edge_lo (s : PicState) (irq level : Nat)
    (he : s.elcr &&& (1 <<< irq) = 0) (hl : level = 0) :
    pic_set_irq1_regs s irq level =
      { s with irr := s.irr, last_irr := s.last_irr &&& (255 ^^^ (1 <<< irq)) } := by
  simp only [pic_set_irq1_regs]
  rw [if_neg (by simp [he]), if_neg (by simp [hl])]

/-- C2: line input behaviour by trigger mode, stated for the unit the input
addresses: a level-triggered line mirrors the level into irr and last_irr; an
edge-triggered line sets irr only on a rising edge and tracks the level in
last_irr, a falling edge clearing only last_irr and leaving irr alone.  Bits
of other lines and the other registers are untouched. -/
theorem claim2_line_input (st : PicState2) (u : Bool) (irq level : Nat) (h8 : irq < 8) :
    (getUnit (pic_set_irq1 st u irq level) u).imr = (getUnit st u).imr ∧
    (getUnit (pic_set_irq1 st u irq level) u).isr = (getUnit st u).isr ∧
    (getUnit (pic_set_irq1 st u irq level) u).elcr = (getUnit st u).elcr ∧
    (∀ j, j < 8 → j ≠ irq →
      (getUnit (pic_set_irq1 st u irq level) u).irr.testBit j = (getUnit st u).irr.testBit j ∧
      (getUnit (pic_set_irq1 st u irq level) u).last_irr.testBit j
        = (getUnit st u).last_irr.testBit j) ∧
    ((getUnit st u).elcr.testBit irq = true →
      (level ≠ 0 →
        (getUnit (pic_set_irq1 st u irq level) u).irr.testBit irq = true ∧
        (getUnit (pic_set_irq1 st u irq level) u).last_irr.testBit irq = true) ∧
      (level = 0 →
        (getUnit (pic_set_irq1 st u irq level) u).irr.testBit irq = false ∧
        (getUnit (pic_set_irq1 st u irq level) u).last_irr.testBit irq = false)) ∧
    ((getUnit st u).elcr.testBit irq = false →
      (level ≠ 0 →
        (getUnit (pic_set_irq1 st u irq level) u).last_irr.testBit irq = true ∧
        ((getUnit st u).last_irr.testBit irq = false →
          (getUnit (pic_set_irq1 st u irq level) u).irr.testBit irq = true) ∧
        ((getUnit st u).last_irr.testBit irq = true →
          (getUnit (pic_set_irq1 st u irq level) u).irr = (getUnit st u).irr)) ∧
      (level = 0 →
        (getUnit (pic_set_irq1 st u irq level) u).last_irr.testBit irq = false ∧
        (getUnit (pic_set_irq1 st u irq level) u).irr = (getUnit st u).irr)) := by
  have hb : getUnit (pic_set_irq1 st u irq level) u = pic_set_irq1_regs (getUnit st u) irq level := by
    cases u <;> rfl
  rw [hb]
  generalize getUnit st u = s
  refine ⟨?_, ?_, ?_, ?_, ?_, ?_⟩
  · by_cases he : s.elcr &&& (1 <<< irq) = 0 <;> by_cases hl : level = 0
    · rw [regs_edge_lo s irq level he hl]
    · rw [regs_edge_hi s irq level he hl]
    · rw [regs_level_lo s irq level he hl]
    · rw [regs_level_hi s irq level he hl]
  · by_cases he : s.elcr &&& (1 <<< irq) = 0 <;> by_cases hl : level = 0
    · rw [regs_edge_lo s irq level he hl]
    · rw [regs_edge_hi s irq level he hl]
    · rw [regs_level_lo s irq level he hl]
    · rw [regs_level_hi s irq level he hl]
  · by_cases he : s.elcr &&& (1 <<< irq) = 0 <;> by_cases hl : level = 0
    · rw [regs_edge_lo s irq level he hl]
    · rw [regs_edge_hi s irq level he hl]
    · rw [regs_level_lo s irq level he hl]
    · rw [regs_level_hi s irq level he hl]
  · intro j hj8 hjne
    have hd : decide (irq = j) = false := by simp [Ne.symm hjne]
    have hcomp : (255 ^^^ (1 <<< irq)).testBit j = true := by
      rw [testBit_comp255 _ j hj8, testBit_one_shift, hd]
      rfl
    by_cases he : s.elcr &&& (1 <<< irq) = 0 <;> by_cases hl : level = 0
    · rw [regs_edge_lo s irq level he hl]
      constructor
      · rfl
      · show (s.last_irr &&& (255 ^^^ (1 <<< irq))).testBit j = s.last_irr.testBit j
        rw [Nat.testBit_land, hcomp, Bool.and_true]
    · rw [regs_edge_hi s irq level he hl]
      constructor
      · show (if s.last_irr &&& (1 <<< irq) = 0 then s.irr ||| (1 <<< irq) else s.irr).testBit j
            = s.irr.testBit j
        by_cases hli : s.last_irr &&& (1 <<< irq) = 0
        · rw [if_pos hli, Nat.testBit_lor, testBit_one_shift, hd, Bool.or_false]
        · rw [if_neg hli]
      · show (s.last_irr ||| (1 <<< irq)).testBit j = s.last_irr.testBit j
        rw [Nat.testBit_lor, testBit_one_shift, hd, Bool.or_false]
    · rw [regs_level_lo s irq level he hl]
      constructor
      · show (s.irr &&& (255 ^^^ (1 <<< irq))).testBit j = s.irr.testBit j
        rw [Nat.testBit_land, hcomp, Bool.and_true]
      · show (s.last_irr &&& (255 ^^^ (1 <<< irq))).testBit j = s.last_irr.testBit j
        rw [Nat.testBit_land, hcomp, Bool.and_true]
    · rw [regs_level_hi s irq level he hl]
      constructor
      · show (s.irr ||| (1 <<< irq)).testBit j = s.irr.testBit j
        rw [Nat.testBit_lor, testBit_one_shift, hd, Bool.or_false]
      · show (s.last_irr ||| (1 <<< irq)).testBit j = s.last_irr.testBit j
        rw [Nat.testBit_lor, testBit_one_shift, hd, Bool.or_false]
  · intro he
    have hene : s.elcr &&& (1 <<< irq) ≠ 0 := by
      rw [Ne, land_one_shift_eq_zero, he]
      simp
    have hcompi : (255 ^^^ (1 <<< irq)).testBit irq = false := by
      rw [testBit_comp255 _ irq h8, testBit_one_shift]
      simp
    constructor
    · intro hl
      rw [regs_level_hi s irq level hene hl]
      constructor
      · show (s.irr ||| (1 <<< irq)).testBit irq = true
        rw [Nat.testBit_lor, testBit_one_shift]
        simp
      · show (s.last_irr ||| (1 <<< irq)).testBit irq = true
        rw [Nat.testBit_lor, testBit_one_shift]
        simp
    · intro hl
      rw [regs_level_lo s irq level hene hl]
      constructor
      · show (s.irr &&& (255 ^^^ (1 <<< irq))).testBit irq = false
        rw [Nat.testBit_land, hcompi, Bool.and_false]
      · show (s.last_irr &&& (255 ^^^ (1 <<< irq))).testBit irq = false
        rw [Nat.testBit_land, hcompi, Bool.and_false]
  · intro he
    have heq : s.elcr &&& (1 <<< irq) = 0 := by
      rw [land_one_shift_eq_zero, he]
    have hcompi : (255 ^^^ (1 <<< irq)).testBit irq = false := by
      rw [testBit_comp255 _ irq h8, testBit_one_shift]
      simp
    constructor
    · intro hl
      rw [regs_edge_hi s irq level heq hl]
      refine ⟨?_, ?_, ?_⟩
      · show (s.last_irr ||| (1 <<< irq)).testBit irq = true
        rw [Nat.testBit_lor, testBit_one_shift]
        simp
      · intro hlast
        have hli : s.last_irr &&& (1 <<< irq) = 0 := by rw [land_one_shift_eq_zero, hlast]
        show (if s.last_irr &&& (1 <<< irq) = 0 then s.irr ||| (1 <<< irq) else s.irr).testBit irq
            = true
        rw [if_pos hli, Nat.testBit_lor, testBit_one_shift]
        simp
      · intro hlast
        have hli : ¬ s.last_irr &&& (1 <<< irq) = 0 := by
          rw [land_one_shift_eq_zero, hlast]
          simp
        show (if s.last_irr &&& (1 <<< irq) = 0 then s.irr ||| (1 <<< irq) else s.irr) = s.irr
        rw [if_neg hli]
    · intro hl
      rw [regs_edge_lo s irq level heq hl]
      constructor
      · show (s.last_irr &&& (255 ^^^ (1 <<< irq))).testBit irq = false
        rw [Nat.testBit_land, hcompi, Bool.and_false]
      · rfl

/-- Witness for the line-input claim: level-triggered line 0 of the master
driven high. -/
theorem claim2_line_input_witness :
    (getUnit (pic_set_irq1 claim2State false 0 1) false).irr.testBit 0 = true ∧
    (getUnit (pic_set_irq1 claim2State false 0 1) false).last_irr.testBit 0 = true := by
  have h := claim2_line_input claim2State false 0 1 (by decide)
  exact (h.2.2.2.2.1 (by decide)).1 (by decide)

lemma or_self_right (a m : Nat) : a ||| m ||| m = a ||| m := by
  rw [Nat.or_assoc, Nat.or_self]

lemma and_self_right (a m : Nat) : a &&& m &&& m = a &&& m := by
  rw [Nat.land_assoc, Nat.and_self]

lemma or_land_self (l m : Nat) : (l ||| m) &&& m = m := by
  apply Nat.eq_of_testBit_eq
  intro i
  rw [Nat.testBit_land, Nat.testBit_lor]
  cases m.testBit i <;> simp

lemma one_shift_ne_zero (i : Nat) : (1 : Nat) <<< i ≠ 0 := by
  rw [Nat.shiftLeft_eq, one_mul]
  positivity

lemma pic_set_irq1_regs_idem (s : PicState) (irq level : Nat) :
    pic_set_irq1_regs (pic_set_irq1_regs s irq level) irq level
      = pic_set_irq1_regs s irq level := by
  by_cases he : s.elcr &&& (1 <<< irq) = 0 <;> by_cases hl : level = 0
  · rw [regs_edge_lo s irq level he hl]
    simp [pic_set_irq1_regs, he, hl, and_self_right]
  · rw [regs_edge_hi s irq level he hl]
    have hli : ¬ (s.last_irr ||| (1 <<< irq)) &&& (1 <<< irq) = 0 := by
      rw [or_land_self]
      exact one_shift_ne_zero irq
    simp [pic_set_irq1_regs, he, hl, hli, or_self_right]
  · rw [regs_level_lo s irq level he hl]
    simp [pic_set_irq1_regs, he, hl, and_self_right]
  · rw [regs_level_hi s irq level he hl]
    simp [pic_set_irq1_regs, he, hl, or_self_right]

lemma pic_update_irq0_idem (st : PicState2) :
    pic_update_irq0 (pic_update_irq0 st) = pic_update_irq0 st := rfl

lemma pic_set_irq1_0_idem (st : PicState2) (irq level : Nat) :
    pic_set_irq1_0 (pic_set_irq1_0 st irq level) irq level = pic_set_irq1_0 st irq level := by
  simp only [pic_set_irq1_0, pic_update_irq0, pic_set_irq1_regs_idem]

lemma pic_update_irq1_idem (st : PicState2) :
    pic_update_irq1 (pic_update_irq1 st) = pic_update_irq1 st := by
  simp only [pic_update_irq1, pic_set_irq1_0, pic_update_irq0, pic_set_irq1_regs_idem]

lemma pic_set_irq1_1_idem (st : PicState2) (irq level : Nat) :
    pic_set_irq1_1 (pic_set_irq1_1 st irq level) irq level = pic_set_irq1_1 st irq level := by
  simp only [pic_set_irq1_1, pic_update_irq1, pic_set_irq1_0, pic_update_irq0,
    pic_set_irq1_regs_idem]

/-- C10: the line-input operation of the pair is idempotent: repeating the
same (line, level) input leaves the state produced by the first input
unchanged, both units and the output wire included. -/
theorem claim10_set_irq_idempotent (st : PicState2) (irq level : Nat) :
    i8259_set_irq (i8259_set_irq st irq level) irq level = i8259_set_irq st irq level := by
  by_cases h16 : irq ≥ 16
  · simp [i8259_set_irq, h16]
  · simp only [i8259_set_irq, if_neg h16]
    cases hd : decide (irq >>> 3 ≠ 0) <;> simp only [pic_set_irq1]
    · exact pic_set_irq1_0_idem st (irq &&& 7) level
    · exact pic_set_irq1_1_idem st (irq &&& 7) level

/-- C3: the acknowledge operation pic_read_irq: when the master has no
pending interrupt it returns master.irq_base + 7 and applies no intack; when
the pending line is 2 it routes through the slave, returning
slave.irq_base + 7 on a spurious slave or acknowledging slave line irq2 and
returning slave.irq_base + irq2; otherwise it returns master.irq_base + irq;
and in every non-spurious case the master intack with irq is applied. -/
theorem claim3_acknowledge (st : PicState2) :
    (pic_get_irq true st.pics0 = none → pic_read_irq st = (st.pics0.irq_base + 7, st)) ∧
    (pic_get_irq true st.pics0 = some 2 → pic_get_irq false st.pics1 = none →
      pic_read_irq st = (st.pics1.irq_base + 7, pic_intack st false 2)) ∧
    (∀ irq2, pic_get_irq true st.pics0 = some 2 → pic_get_irq false st.pics1 = some irq2 →
      pic_read_irq st =
        (st.pics1.irq_base + irq2, pic_intack (pic_intack st true irq2) false 2)) ∧
    (∀ irq, pic_get_irq true st.pics0 = some irq → irq ≠ 2 →
      pic_read_irq st = (st.pics0.irq_base + irq, pic_intack st false irq)) := by
  refine ⟨?_, ?_, ?_, ?_⟩
  · intro h
    simp only [pic_read_irq, h]
  · intro h1 h2
    simp only [pic_read_irq, h1, h2]
    rw [if_pos trivial]
  · intro irq2 h1 h2
    simp only [pic_read_irq, h1, h2]
    rw [if_pos trivial]
    rfl
  · intro irq h1 hne
    simp only [pic_read_irq, h1]
    rw [if_neg hne]

/-- Witness for the acknowledge claim: cascade acknowledge of slave line 0
returning vector 0x28. -/
theorem claim3_acknowledge_witness :
    pic_read_irq claim3State =
      (claim3State.pics1.irq_base + 0, pic_intack (pic_intack claim3State true 0) false 2) :=
  (claim3_acknowledge claim3State).2.2.1 0 (by decide) (by decide)

/-- C8: an ICW1 write (bit 4 set) with the level-sensitive bit 3 set reaches
hw_error (modelled as none, the machine halt); with bit 3 clear the write
never reaches it. -/
theorem claim8_icw1_level_fatal (st : PicState2) (u : Bool) (val : Nat)
    (h4 : val &&& 0x10 ≠ 0) :
    (val &&& 0x08 ≠ 0 → pic_ioport_write st u 0 val = none) ∧
    (val &&& 0x08 = 0 → ∃ st2, pic_ioport_write st u 0 val = some st2) := by
  constructor
  · intro h3
    simp [pic_ioport_write, h4, h3]
  · intro h3
    simp [pic_ioport_write, h4, h3]

/-- Witness for the ICW1 fatal claim: value 0x19 halts, value 0x11 does
not. -/
theorem claim8_icw1_level_fatal_witness :
    pic_ioport_write initState false 0 0x19 = none ∧
    ∃ st2, pic_ioport_write initState false 0 0x11 = some st2 :=
  ⟨(claim8_icw1_level_fatal initState false 0x19 (by decide)).1 (by decide),
   (claim8_icw1_level_fatal initState false 0x11 (by decide)).2 (by decide)⟩

/-- Counterexample to C7 as stated: cold reset of the freshly initialised
master leaves elcr_mask at 0xf8, so cold reset does not set elcr_mask to
zero. -/
theorem claim7_counterexample :
    (getUnit (pic_reset initState false) false).elcr_mask = 0xf8 ∧ (0xf8 : Nat) ≠ 0 := by
  decide

/-- C7 amended: warm reset (pic_init_reset, triggered by ICW1) zeroes every
register of the unit except elcr and elcr_mask, which keep their prior
values; cold reset (pic_reset) additionally zeroes elcr, while elcr_mask
keeps its prior value as well. -/
theorem claim7_reset (st : PicState2) (u : Bool) :
    ((getUnit (pic_init_reset st u) u).last_irr = 0 ∧
     (getUnit (pic_init_reset st u) u).irr = 0 ∧
     (getUnit (pic_init_reset st u) u).imr = 0 ∧
     (getUnit (pic_init_reset st u) u).isr = 0 ∧
     (getUnit (pic_init_reset st u) u).priority_add = 0 ∧
     (getUnit (pic_init_reset st u) u).irq_base = 0 ∧
     (getUnit (pic_init_reset st u) u).read_reg_select = 0 ∧
     (getUnit (pic_init_reset st u) u).poll = 0 ∧
     (getUnit (pic_init_reset st u) u).special_mask = 0 ∧
     (getUnit (pic_init_reset st u) u).init_state = 0 ∧
     (getUnit (pic_init_reset st u) u).auto_eoi = 0 ∧
     (getUnit (pic_init_reset st u) u).rotate_on_auto_eoi = 0 ∧
     (getUnit (pic_init_reset st u) u).special_fully_nested_mode = 0 ∧
     (getUnit (pic_init_reset st u) u).init4 = 0 ∧
     (getUnit (pic_init_reset st u) u).single_mode = 0 ∧
     (getUnit (pic_init_reset st u) u).elcr = (getUnit st u).elcr ∧
     (getUnit (pic_init_reset st u) u).elcr_mask = (getUnit st u).elcr_mask) ∧
    ((getUnit (pic_reset st u) u).last_irr = 0 ∧
     (getUnit (pic_reset st u) u).irr = 0 ∧
     (getUnit (pic_reset st u) u).imr = 0 ∧
     (getUnit (pic_reset st u) u).isr = 0 ∧
     (getUnit (pic_reset st u) u).priority_add = 0 ∧
     (getUnit (pic_reset st u) u).irq_base = 0 ∧
     (getUnit (pic_reset st u) u).read_reg_select = 0 ∧
     (getUnit (pic_reset st u) u).poll = 0 ∧
     (getUnit (pic_reset st u) u).special_mask = 0 ∧
     (getUnit (pic_reset st u) u).init_state = 0 ∧
     (getUnit (pic_reset st u) u).auto_eoi = 0 ∧
     (getUnit (pic_reset st u) u).rotate_on_auto_eoi = 0 ∧
     (getUnit (pic_reset st u) u).special_fully_nested_mode = 0 ∧
     (getUnit (pic_reset st u) u).init4 = 0 ∧
     (getUnit (pic_reset st u) u).single_mode = 0 ∧
     (getUnit (pic_reset st u) u).elcr = 0 ∧
     (getUnit (pic_reset st u) u).elcr_mask = (getUnit st u).elcr_mask) := by
  cases u <;>
    exact ⟨⟨rfl, rfl, rfl, rfl, rfl, rfl, rfl, rfl, rfl, rfl, rfl, rfl, rfl, rfl, rfl, rfl, rfl⟩,
           ⟨rfl, rfl, rfl, rfl, rfl, rfl, rfl, rfl, rfl, rfl, rfl, rfl, rfl, rfl, rfl, rfl, rfl⟩⟩

/-- Counterexample to C6 as stated: with the poll flag armed, the offset-1
read performs a polled acknowledge and returns 7, not imr = 1. -/
theorem claim6_counterexample :
    (pic_ioport_read claim6State false 1).1 ≠ claim6State.pics0.imr := by
  decide

/-- C6 amended: a read from offset 1 returns the unit's imr whenever the
unit's poll flag is clear, and leaves the state unchanged. -/
theorem claim6_read_imr (st : PicState2) (u : Bool) (hpoll : (getUnit st u).poll = 0) :
    pic_ioport_read st u 1 = ((getUnit st u).imr, st) := by
  simp only [pic_ioport_read]
  rw [if_neg (by simp [hpoll]), if_neg (by norm_num)]

/-- Witness for the amended offset-1 read claim at the fresh pair. -/
theorem claim6_read_imr_witness :
    pic_ioport_read initState false 1 = ((getUnit initState false).imr, initState) :=
  claim6_read_imr initState false rfl

/-- Counterexample to C4 as stated: the polled acknowledge of master line 2
leaves the output wire high even though the pending computation of the final
state is empty, so the output wire was not re-evaluated there. -/
theorem claim4_counterexample :
    (pic_ioport_read claim4State false 0).2.cpu_out = true ∧
    pic_get_irq true (pic_ioport_read claim4State false 0).2.pics0 = none := by
  decide

lemma poll_read_none (st : PicState2) (u : Bool)
    (h : pic_get_irq (!u) (getUnit st u) = none) : pic_poll_read st u = (7, st) := by
  simp only [pic_poll_read, h]

lemma poll_read_master_some (st : PicState2) (r : Nat)
    (hr : pic_get_irq true st.pics0 = some r) :
    pic_poll_read st false =
      (r, if r ≠ 2 then
            pic_update_irq0 { st with pics0 := { st.pics0 with
              irr := st.pics0.irr &&& (255 ^^^ (1 <<< r)),
              isr := st.pics0.isr &&& (255 ^^^ (1 <<< r)) } }
          else { st with pics0 := { st.pics0 with
              irr := st.pics0.irr &&& (255 ^^^ (1 <<< r)),
              isr := st.pics0.isr &&& (255 ^^^ (1 <<< r)) } }) := by
  have hg : pic_get_irq (!(false : Bool)) (getUnit st false) = some r := hr
  simp only [pic_poll_read, hg]
  by_cases hr2 : r = 2
  · subst hr2
    simp [setUnit, getUnit]
  · simp [setUnit, getUnit, pic_update_irq, hr2]

lemma poll_read_slave_some (st : PicState2) (r : Nat)
    (hr : pic_get_irq false st.pics1 = some r) :
    pic_poll_read st true =
      (r, pic_update_irq1 { st with
            pics0 := { st.pics0 with
              isr := st.pics0.isr &&& (255 ^^^ (1 <<< 2)),
              irr := st.pics0.irr &&& (255 ^^^ (1 <<< 2)) },
            pics1 := { st.pics1 with
              irr := st.pics1.irr &&& (255 ^^^ (1 <<< r)),
              isr := st.pics1.isr &&& (255 ^^^ (1 <<< r)) } }) := by
  have hg : pic_get_irq (!(true : Bool)) (getUnit st true) = some r := hr
  simp only [pic_poll_read, hg]
  simp [setUnit, getUnit, pic_update_irq]

lemma ioport_read_poll (st : PicState2) (u : Bool) (addr : Nat)
    (hpoll : (getUnit st u).poll ≠ 0) :
    pic_ioport_read st u addr = ((pic_poll_read st u).1,
      setUnit (pic_poll_read st u).2 u { getUnit (pic_poll_read st u).2 u with poll := 0 }) := by
  simp only [pic_ioport_read]
  rw [if_pos hpoll]

/-- C4 amended: a read from offset 0 with the poll flag set clears the flag
and performs a polled acknowledge: with no pending line it returns 7 and
changes nothing else; with pending line r it returns r, clears the line's
irr and isr bits (on the slave also the master's irr and isr bit 2), and
re-evaluates the output wire, except when the unit is the master and r = 2,
in which case the wire keeps its prior value. -/
theorem claim4_polled_read (st : PicState2) :
    (∀ u, (getUnit st u).poll ≠ 0 → pic_get_irq (!u) (getUnit st u) = none →
      pic_ioport_read st u 0 = (7, setUnit st u { getUnit st u with poll := 0 })) ∧
    (st.pics0.poll ≠ 0 → ∀ r, pic_get_irq true st.pics0 = some r →
      (pic_ioport_read st false 0).1 = r ∧
      (pic_ioport_read st false 0).2.pics0.irr = st.pics0.irr &&& (255 ^^^ (1 <<< r)) ∧
      (pic_ioport_read st false 0).2.pics0.isr = st.pics0.isr &&& (255 ^^^ (1 <<< r)) ∧
      (pic_ioport_read st false 0).2.pics0.poll = 0 ∧
      (pic_ioport_read st false 0).2.pics1 = st.pics1 ∧
      (r ≠ 2 → (pic_ioport_read st false 0).2.cpu_out =
        (pic_get_irq true (pic_ioport_read st false 0).2.pics0).isSome) ∧
      (r = 2 → (pic_ioport_read st false 0).2.cpu_out = st.cpu_out)) ∧
    (st.pics1.poll ≠ 0 → ∀ r, pic_get_irq false st.pics1 = some r →
      (pic_ioport_read st true 0).1 = r ∧
      (pic_ioport_read st true 0).2.pics1.irr = st.pics1.irr &&& (255 ^^^ (1 <<< r)) ∧
      (pic_ioport_read st true 0).2.pics1.isr = st.pics1.isr &&& (255 ^^^ (1 <<< r)) ∧
      (pic_ioport_read st true 0).2.pics1.poll = 0 ∧
      (pic_ioport_read st true 0).2 =
        (let stB := { st with
            pics0 := { st.pics0 with
              isr := st.pics0.isr &&& (255 ^^^ (1 <<< 2)),
              irr := st.pics0.irr &&& (255 ^^^ (1 <<< 2)) },
            pics1 := { st.pics1 with
              irr := st.pics1.irr &&& (255 ^^^ (1 <<< r)),
              isr := st.pics1.isr &&& (255 ^^^ (1 <<< r)) } }
         let stC := pic_update_irq1 stB
         { stC with pics1 := { stC.pics1 with poll := 0 } })) := by
  refine ⟨?_, ?_, ?_⟩
  · intro u hpoll hnone
    rw [ioport_read_poll st u 0 hpoll, poll_read_none st u hnone]
  · intro hpoll r hr
    have e0 := ioport_read_poll st false 0 hpoll
    rw [poll_read_master_some st r hr] at e0
    by_cases hr2 : r = 2
    · subst hr2
      rw [if_neg (by simp)] at e0
      refine ⟨by rw [e0], by rw [e0]; rfl, by rw [e0]; rfl, by rw [e0]; rfl,
        by rw [e0]; rfl, ?_, ?_⟩
      · intro h; exact absurd rfl h
      · intro _; rw [e0]; rfl
    · rw [if_pos hr2] at e0
      refine ⟨by rw [e0], by rw [e0]; rfl, by rw [e0]; rfl, by rw [e0]; rfl,
        by rw [e0]; rfl, ?_, ?_⟩
      · intro _; rw [e0]; rfl
      · intro h; exact absurd h hr2
  · intro hpoll r hr
    have e0 := ioport_read_poll st true 0 hpoll
    rw [poll_read_slave_some st r hr] at e0
    exact ⟨by rw [e0], by rw [e0]; rfl, by rw [e0]; rfl, by rw [e0]; rfl, by rw [e0]; rfl⟩

/-- Witness for the amended polled-read claim: master line 2 polled, the
wire keeps its prior value. -/
theorem claim4_polled_read_witness :
    (pic_ioport_read claim4State false 0).1 = 2 ∧
    (pic_ioport_read claim4State false 0).2.cpu_out = claim4State.cpu_out := by
  have h := (claim4_polled_read claim4State).2.1 (by decide) 2 (by decide)
  exact ⟨h.1, h.2.2.2.2.2.2 rfl⟩

lemma get_priority_le_eight (s : PicState) (mask : Nat) : get_priority s mask ≤ 8 := by
  unfold get_priority
  split
  · exact le_refl 8
  · have h := (prioAux_spec s.priority_add mask 8 0).2.1
    omega

lemma pic_get_irq_some_elim (isMaster : Bool) (s : PicState) (irq : Nat)
    (h : pic_get_irq isMaster s = some irq) :
    get_priority s (s.irr &&& (255 ^^^ s.imr)) ≠ 8 ∧
    get_priority s (s.irr &&& (255 ^^^ s.imr)) < get_priority s (serviceMask isMaster s) ∧
    irq = (get_priority s (s.irr &&& (255 ^^^ s.imr)) + s.priority_add) &&& 7 := by
  have hmeq : (if s.special_fully_nested_mode ≠ 0 ∧ isMaster then
      (if s.special_mask ≠ 0 then s.isr &&& (255 ^^^ s.imr) else s.isr) &&& (255 ^^^ (1 <<< 2))
      else (if s.special_mask ≠ 0 then s.isr &&& (255 ^^^ s.imr) else s.isr)) =
      serviceMask isMaster s := rfl
  simp only [pic_get_irq, hmeq] at h
  by_cases h8 : get_priority s (s.irr &&& (255 ^^^ s.imr)) = 8
  · rw [if_pos h8] at h
    exact absurd h (by simp)
  · rw [if_neg h8] at h
    by_cases hlt : get_priority s (s.irr &&& (255 ^^^ s.imr))
        < get_priority s (serviceMask isMaster s)
    · rw [if_pos hlt] at h
      exact ⟨h8, hlt, (Option.some.injEq _ _ ▸ h).symm⟩
    · rw [if_neg hlt] at h
      exact absurd h (by simp)

/-- When pic_get_irq selects line irq, the isr bit of that line was clear,
unless it is the master's line 2 hidden by special fully nested mode. -/
lemma acked_isr_bit_clear (isMaster : Bool) (s : PicState) (irq : Nat)
    (h : pic_get_irq isMaster s = some irq)
    (hx : ¬(isMaster = true ∧ s.special_fully_nested_mode ≠ 0 ∧ irq = 2)) :
    s.isr.testBit irq = false := by
  obtain ⟨h8, hlt, hirq⟩ := pic_get_irq_some_elim isMaster s irq h
  have hp8 : get_priority s (s.irr &&& (255 ^^^ s.imr)) < 8 := by
    have := get_priority_le_eight s (s.irr &&& (255 ^^^ s.imr))
    omega
  have hirq8 : irq < 8 := by
    rw [hirq, land_seven]
    exact Nat.mod_lt _ (by norm_num)
  have hreq : (s.irr &&& (255 ^^^ s.imr)).testBit irq = true := by
    rw [hirq]
    exact get_priority_hit s _ hp8
  have himr : s.imr.testBit irq = false := by
    rw [Nat.testBit_land, testBit_comp255 _ _ hirq8] at hreq
    cases hi : s.imr.testBit irq
    · rfl
    · rw [hi] at hreq
      simp at hreq
  by_contra hb
  rw [Bool.not_eq_false] at hb
  have hm1 : (if s.special_mask ≠ 0 then s.isr &&& (255 ^^^ s.imr) else s.isr).testBit irq
      = true := by
    by_cases hsm : s.special_mask ≠ 0
    · rw [if_pos hsm, Nat.testBit_land, testBit_comp255 _ _ hirq8, hb, himr]
      rfl
    · rw [if_neg hsm]
      exact hb
  have hm : (serviceMask isMaster s).testBit irq = true := by
    simp only [serviceMask]
    by_cases hc : s.special_fully_nested_mode ≠ 0 ∧ isMaster = true
    · have hir2 : irq ≠ 2 := fun he => hx ⟨hc.2, hc.1, he⟩
      rw [if_pos hc, Nat.testBit_land, hm1, testBit_comp255 _ _ hirq8, testBit_one_shift]
      simp [Ne.symm hir2]
    · rw [if_neg hc]
      exact hm1
  have hle : get_priority s (serviceMask isMaster s)
      ≤ get_priority s (s.irr &&& (255 ^^^ s.imr)) := by
    apply get_priority_le_of_testBit
    rw [← hirq]
    exact hm
  omega

lemma intack_master_pics0_isr (st : PicState2) (irq : Nat) (h0 : st.pics0.auto_eoi = 0) :
    (pic_intack st false irq).pics0.isr = st.pics0.isr ||| (1 <<< irq) := by
  simp [pic_intack, pic_intack_regs, setUnit, getUnit, pic_update_irq, pic_update_irq0, h0]

lemma intack_master_pics1 (st : PicState2) (irq : Nat) :
    (pic_intack st false irq).pics1 = st.pics1 := rfl

lemma intack_slave_pics1_isr (st : PicState2) (irq : Nat) (h1 : st.pics1.auto_eoi = 0) :
    (pic_intack st true irq).pics1.isr = st.pics1.isr ||| (1 <<< irq) := by
  simp [pic_intack, pic_intack_regs, setUnit, getUnit, pic_update_irq, pic_update_irq1,
    pic_set_irq1_0, pic_update_irq0, h1]

lemma intack_slave_pics0_isr (st : PicState2) (irq : Nat) :
    (pic_intack st true irq).pics0.isr = st.pics0.isr := rfl

/-- Counterexample to C5 as stated: a cascaded acknowledge with auto_eoi
clear on both units newly sets two isr bits, master bit 2 and slave bit 0,
not exactly one. -/
theorem claim5_counterexample :
    claim3State.pics0.auto_eoi = 0 ∧ claim3State.pics1.auto_eoi = 0 ∧
    claim3State.pics0.isr.testBit 2 = false ∧ claim3State.pics1.isr.testBit 0 = false ∧
    (pic_read_irq claim3State).2.pics0.isr.testBit 2 = true ∧
    (pic_read_irq claim3State).2.pics1.isr.testBit 0 = true := by
  decide

/-- C5 amended: after an acknowledge with auto_eoi clear on both units: a
spurious acknowledge changes no isr bit; an acknowledge of master line
irq different from 2 newly sets exactly that one bit (it was clear before, and
the slave isr is untouched); an acknowledge of master line 2 sets master isr
bit 2 (a bit that was clear before whenever special fully nested mode is
off) and, when the slave has pending line irq2, also newly sets the slave's
bit irq2 - one new bit on each unit. -/
theorem claim5_ack_isr_bits (st : PicState2)
    (h0 : st.pics0.auto_eoi = 0) (h1 : st.pics1.auto_eoi = 0) :
    (pic_get_irq true st.pics0 = none →
      (pic_read_irq st).2.pics0.isr = st.pics0.isr ∧
      (pic_read_irq st).2.pics1.isr = st.pics1.isr) ∧
    (∀ irq, pic_get_irq true st.pics0 = some irq → irq ≠ 2 →
      (pic_read_irq st).2.pics0.isr = st.pics0.isr ||| (1 <<< irq) ∧
      st.pics0.isr.testBit irq = false ∧
      (pic_read_irq st).2.pics1.isr = st.pics1.isr) ∧
    (pic_get_irq true st.pics0 = some 2 →
      (pic_read_irq st).2.pics0.isr = st.pics0.isr ||| (1 <<< 2) ∧
      (st.pics0.special_fully_nested_mode = 0 → st.pics0.isr.testBit 2 = false) ∧
      (pic_get_irq false st.pics1 = none →
        (pic_read_irq st).2.pics1.isr = st.pics1.isr) ∧
      (∀ irq2, pic_get_irq false st.pics1 = some irq2 →
        (pic_read_irq st).2.pics1.isr = st.pics1.isr ||| (1 <<< irq2) ∧
        st.pics1.isr.testBit irq2 = false)) := by
  refine ⟨?_, ?_, ?_⟩
  · intro h
    simp [pic_read_irq, h]
  · intro irq h hne
    have hclear := acked_isr_bit_clear true st.pics0 irq h (by
      intro hc
      exact hne hc.2.2)
    simp only [pic_read_irq, h]
    rw [if_neg hne]
    refine ⟨?_, hclear, ?_⟩
    · exact intack_master_pics0_isr st irq h0
    · rw [intack_master_pics1]
  · intro h
    refine ⟨?_, ?_, ?_, ?_⟩
    · simp only [pic_read_irq, h]
      rw [if_pos trivial]
      cases hs : pic_get_irq false st.pics1 with
      | none => exact intack_master_pics0_isr st 2 h0
      | some irq2 =>
        have e1 : (pic_intack st true irq2).pics0.auto_eoi = 0 := h0
        exact intack_master_pics0_isr (pic_intack st true irq2) 2 e1
    · intro hsf
      exact acked_isr_bit_clear true st.pics0 2 h (by
        intro hc
        exact hc.2.1 hsf)
    · intro hs
      simp only [pic_read_irq, h, hs]
      rw [if_pos trivial, intack_master_pics1]
    · intro irq2 hs
      have hclear := acked_isr_bit_clear false st.pics1 irq2 hs (by
        intro hc
        exact Bool.noConfusion hc.1)
      simp only [pic_read_irq, h, hs]
      rw [if_pos trivial, intack_master_pics1]
      refine ⟨?_, hclear⟩
      exact intack_slave_pics1_isr st irq2 h1

/-- Witness for the amended acknowledge-isr claim: the cascade acknowledge of
claim3State sets master bit 2 and slave bit 0. -/
theorem claim5_ack_isr_bits_witness :
    (pic_read_irq claim3State).2.pics0.isr = claim3State.pics0.isr ||| (1 <<< 2) ∧
    (pic_read_irq claim3State).2.pics1.isr = claim3State.pics1.isr ||| (1 <<< 0) := by
  have h := claim5_ack_isr_bits claim3State rfl rfl
  have h2 := (h.2.2 (by decide))
  exact ⟨h2.1, (h2.2.2.2 0 (by decide)).1⟩

lemma land_f8_mod8 (v : Nat) : (v &&& 0xf8) % 8 = 0 := by
  have h : v &&& 0xf8 &&& 7 = v &&& (0xf8 &&& 7) := Nat.land_assoc v 0xf8 7
  have h2 : (0xf8 : Nat) &&& 7 = 0 := rfl
  have h3 : v &&& 0 = 0 := Nat.and_zero v
  rw [h2, h3] at h
  have h4 := land_seven (v &&& 0xf8)
  omega

/-- Both irq_base registers have their low three bits clear. -/
def IrqBaseAligned (st : PicState2) : Prop :=
  st.pics0.irq_base % 8 = 0 ∧ st.pics1.irq_base % 8 = 0

lemma set_irq1_irq_base (st : PicState2) (u : Bool) (irq level : Nat) :
    (pic_set_irq1 st u irq level).pics0.irq_base = st.pics0.irq_base ∧
    (pic_set_irq1 st u irq level).pics1.irq_base = st.pics1.irq_base := by
  cases u <;> exact ⟨rfl, rfl⟩

lemma read_irq_irq_base (st : PicState2) :
    (pic_read_irq st).2.pics0.irq_base = st.pics0.irq_base ∧
    (pic_read_irq st).2.pics1.irq_base = st.pics1.irq_base := by
  cases hE : pic_get_irq true st.pics0 with
  | none =>
    simp only [pic_read_irq, hE]
    constructor <;> first | rfl | trivial
  | some irq =>
    by_cases h2 : irq = 2
    · subst h2
      cases hs : pic_get_irq false st.pics1 with
      | none =>
        simp only [pic_read_irq, hE, hs]
        rw [if_pos trivial]
        exact ⟨rfl, rfl⟩
      | some irq2 =>
        simp only [pic_read_irq, hE, hs]
        rw [if_pos trivial]
        exact ⟨rfl, rfl⟩
    · simp only [pic_read_irq, hE]
      rw [if_neg h2]
      exact ⟨rfl, rfl⟩

lemma poll_read_irq_base (st : PicState2) (u : Bool) :
    (pic_poll_read st u).2.pics0.irq_base = st.pics0.irq_base ∧
    (pic_poll_read st u).2.pics1.irq_base = st.pics1.irq_base := by
  cases u
  · cases hE : pic_get_irq true st.pics0 with
    | none =>
      rw [poll_read_none st false (by exact hE)]
      exact ⟨rfl, rfl⟩
    | some r =>
      rw [poll_read_master_some st r hE]
      by_cases hr2 : r ≠ 2
      · rw [if_pos hr2]
        exact ⟨rfl, rfl⟩
      · rw [if_neg hr2]
        exact ⟨rfl, rfl⟩
  · cases hE : pic_get_irq false st.pics1 with
    | none =>
      rw [poll_read_none st true (by exact hE)]
      exact ⟨rfl, rfl⟩
    | some r =>
      rw [poll_read_slave_some st r hE]
      exact ⟨rfl, rfl⟩

lemma ioport_read_irq_base (st : PicState2) (u : Bool) (addr : Nat) :
    (pic_ioport_read st u addr).2.pics0.irq_base = st.pics0.irq_base ∧
    (pic_ioport_read st u addr).2.pics1.irq_base = st.pics1.irq_base := by
  by_cases hp : (getUnit st u).poll ≠ 0
  · rw [ioport_read_poll st u addr hp]
    have h := poll_read_irq_base st u
    cases u
    · exact ⟨h.1, h.2⟩
    · exact ⟨h.1, h.2⟩
  · simp only [pic_ioport_read]
    rw [if_neg hp]
    by_cases ha : addr = 0
    · rw [if_pos ha]
      exact ⟨rfl, rfl⟩
    · rw [if_neg ha]
      exact ⟨rfl, rfl⟩

lemma intack_read_irq_base (st : PicState2) :
    (pic_intack_read st).2.pics0.irq_base = st.pics0.irq_base ∧
    (pic_intack_read st).2.pics1.irq_base = st.pics1.irq_base := by
  have h0 := poll_read_irq_base st false
  simp only [pic_intack_read]
  by_cases h2 : (pic_poll_read st false).1 = 2
  · rw [if_pos h2]
    have h1 := poll_read_irq_base (pic_poll_read st false).2 true
    exact ⟨h1.1.trans h0.1, h1.2.trans h0.2⟩
  · rw [if_neg h2]
    exact ⟨h0.1, h0.2⟩

lemma reset_irq_base (st : PicState2) (u : Bool) :
    ((pic_reset st u).pics0.irq_base = 0 ∨ (pic_reset st u).pics0.irq_base = st.pics0.irq_base) ∧
    ((pic_reset st u).pics1.irq_base = 0 ∨ (pic_reset st u).pics1.irq_base = st.pics1.irq_base) := by
  cases u
  · exact ⟨Or.inl rfl, Or.inr rfl⟩
  · exact ⟨Or.inr rfl, Or.inl rfl⟩

lemma elcr_write_irq_base (st : PicState2) (u : Bool) (val : Nat) :
    (elcr_ioport_write st u val).pics0.irq_base = st.pics0.irq_base ∧
    (elcr_ioport_write st u val).pics1.irq_base = st.pics1.irq_base := by
  cases u <;> exact ⟨rfl, rfl⟩

set_option maxHeartbeats 2000000 in
lemma ioport_write_aligned (st : PicState2) (u : Bool) (addr val : Nat) (st2 : PicState2)
    (h : pic_ioport_write st u addr val = some st2) (hP : IrqBaseAligned st) :
    IrqBaseAligned st2 := by
  unfold IrqBaseAligned at hP ⊢
  cases u
  · rcases hi : st.pics0.init_state with _ | _ | _ | _ | n <;>
      simp only [pic_ioport_write, getUnit, setUnit, pic_update_irq, hi,
        Bool.false_eq_true, if_false] at h <;>
      split_ifs at h <;>
      first
        | (exact Option.noConfusion h)
        | (injection h with h; subst h;
           constructor <;> first | exact hP.1 | exact hP.2 | exact land_f8_mod8 val | rfl)
  · rcases hi : st.pics1.init_state with _ | _ | _ | _ | n <;>
      simp only [pic_ioport_write, getUnit, setUnit, pic_update_irq, hi,
        eq_self_iff_true, if_true] at h <;>
      split_ifs at h <;>
      first
        | (exact Option.noConfusion h)
        | (injection h with h; subst h;
           constructor <;> first | exact hP.1 | exact hP.2 | exact land_f8_mod8 val | rfl)

/-- C9: in every state reachable from the initialised pair through the
public operations, the low three bits of irq_base are zero on both units,
whatever byte is written as ICW2. -/
theorem claim9_irq_base_aligned (st : PicState2) (h : Reachable st) :
    st.pics0.irq_base % 8 = 0 ∧ st.pics1.irq_base % 8 = 0 := by
  induction h with
  | init => exact ⟨rfl, rfl⟩
  | ioport_write st u addr val st2 hr hv hw ih => exact ioport_write_aligned st u addr val st2 hw ih
  | ioport_read st u addr hr ih =>
    have e := ioport_read_irq_base st u addr
    exact ⟨by rw [e.1]; exact ih.1, by rw [e.2]; exact ih.2⟩
  | elcr_write st u val hr hv ih =>
    have e := elcr_write_irq_base st u val
    exact ⟨by rw [e.1]; exact ih.1, by rw [e.2]; exact ih.2⟩
  | set_irq st irq level hr ih =>
    unfold i8259_set_irq
    split
    · exact ih
    · have e := set_irq1_irq_base st (decide (irq >>> 3 ≠ 0)) (irq &&& 7) level
      exact ⟨by rw [e.1]; exact ih.1, by rw [e.2]; exact ih.2⟩
  | read_irq st hr ih =>
    have e := read_irq_irq_base st
    exact ⟨by rw [e.1]; exact ih.1, by rw [e.2]; exact ih.2⟩
  | intack_read st hr ih =>
    have e := intack_read_irq_base st
    exact ⟨by rw [e.1]; exact ih.1, by rw [e.2]; exact ih.2⟩
  | reset st u hr ih =>
    have e := reset_irq_base st u
    constructor
    · rcases e.1 with h1 | h1
      · simp [h1]
      · rw [h1]; exact ih.1
    · rcases e.2 with h1 | h1
      · simp [h1]
      · rw [h1]; exact ih.2

/-- Witness for the irq_base invariant at the initial state. -/
theorem claim9_irq_base_aligned_witness :
    initState.pics0.irq_base % 8 = 0 ∧ initState.pics1.irq_base % 8 = 0 :=
  claim9_irq_base_aligned initState Reachable.init

end I8259
